import Mathlib

/-!
Shallow embedding of the behavior-selection core of the Foxy-VPET repository.

Two learning brains are embedded:
* `FoxyBrain` — the simple weighted-bandit variant from `foxy_main.py`
  (`FoxyBrain.__init__`, `choose_action`, `give_feedback`, `save_brain`,
  `load_brain`).
* `DQNBrain` — the Deep-Q-learning variant from `foxy_mainDQN.py`
  (`ReplayBuffer`, `FoxyBrainDQN.__init__`, `get_state`, `choose_action`,
  `give_feedback`, `train`).

Python `dict`s keyed by action name are embedded as insertion-ordered
association lists (`List (String × _)`), matching Python's insertion-order
iteration.  Python floats are embedded as exact rationals (`ℚ`); the float
literals of the source (`0.15`, `0.05`, `0.1`, `0.995`, `-0.1`) become the
corresponding rationals.  Where a property depends on the rounding of the
accumulated float values themselves — the end-to-end weight totals of the
10+10 feedback scenario — the weight arithmetic is additionally embedded
with exact IEEE-754 binary64 semantics (`FP`, `FoxyBrainF`): integer
significands, round to nearest with ties to even, float literals mapped to
their nearest doubles.  Calls to the process-wide random generator become
explicit arguments (the drawn value / the drawn index).  The torch neural
networks of the DQN variant cannot be embedded numerically; their parameter
blobs are an abstract type argument `P`, and the minibatch gradient step
(sampling + autograd + optimizer step) is an abstract argument
`g : P → List Transition → P` applied to the online parameters — the embedded
claims concern only which parameter sets are read and written, never the
numeric values the gradient step produces.
-/

namespace FoxyVPET

/-- Lookup in an insertion-ordered association list, with a default —
embeds Python `d[k]` (key known present) and `d.get(k, dflt)`. -/
def dget (k : String) (dflt : α) : List (String × α) → α
  | [] => dflt
  | p :: rest => if p.1 = k then p.2 else dget k dflt rest

/-- Assignment `d[k] = v` on an insertion-ordered association list:
updates the key in place if present, appends it otherwise (Python dict
assignment semantics). -/
def dset (k : String) (v : α) : List (String × α) → List (String × α)
  | [] => [(k, v)]
  | p :: rest => if p.1 = k then (k, v) :: rest else p :: dset k v rest

theorem dget_dset_self (k : String) (v dflt : α) (l : List (String × α)) :
    dget k dflt (dset k v l) = v := by
  induction l with
  | nil => simp [dget, dset]
  | cons p rest ih =>
    by_cases h : p.1 = k
    · simp [dset, h, dget]
    · simp [dset, h, dget, ih]

theorem dget_dset_ne (k k' : String) (v dflt : α) (l : List (String × α))
    (h : k' ≠ k) : dget k' dflt (dset k v l) = dget k' dflt l := by
  have h' : k ≠ k' := fun hc => h hc.symm
  induction l with
  | nil => simp [dget, dset, h']
  | cons p rest ih =>
    by_cases hp : p.1 = k
    · subst hp
      simp [dset, dget, h']
    · simp [dset, hp, dget, ih]

/-- `self.actions = ['excited', 'relax', 'sleep', 'walk']` — the learnable
action set, identical in both variants (idle is excluded). -/
def initActions : List String := ["excited", "relax", "sleep", "walk"]

/-- Indexing the action list by a drawn index — embeds
`random.choice(self.actions)` and `self.idx_to_action[action_idx]`
(both read position `i` of the 4-element action list). -/
def actionAt (i : Fin 4) : String := initActions.getD i.1 "excited"

/-! ## Simple variant: `FoxyBrain` (`foxy_main.py`) -/

/-- `self.learning_rate_positive = 0.15`. -/
def learning_rate_positive : ℚ := 15/100

/-- `self.learning_rate_negative = 0.05`. -/
def learning_rate_negative : ℚ := 5/100

/-- The mutable state of `FoxyBrain` (`foxy_main.py` lines 48-63): the
three per-action dictionaries and the fixed exploration rate. -/
structure FoxyBrain where
  weights : List (String × ℚ)
  action_counts : List (String × ℕ)
  positive_feedback : List (String × ℕ)
  exploration_rate : ℚ
deriving DecidableEq, Repr

/-- `FoxyBrain.__init__` before `load_brain`: uniform weights 1.0, zero
counters, exploration rate 0.5. -/
def initBrain : FoxyBrain :=
  { weights := initActions.map (fun a => (a, 1))
    action_counts := initActions.map (fun a => (a, 0))
    positive_feedback := initActions.map (fun a => (a, 0))
    exploration_rate := 1/2 }

/-- The cumulative-probability loop of `FoxyBrain.choose_action`
(lines 83-89): starting from accumulator `cumulative`, walk the
(action, probability) list; return the first action whose running
cumulative mass satisfies `rand_val <= cumulative`; `none` embeds falling
off the end of the loop (the rounding-guard fallback). -/
def cumSelect (r : ℚ) : List (String × ℚ) → ℚ → Option String
  | [], _ => none
  | p :: rest, cumulative =>
    if r ≤ cumulative + p.2 then some p.1 else cumSelect r rest (cumulative + p.2)

/-- `FoxyBrain.choose_action` (lines 65-91).  `r1` is the first
`random.random()` draw (exploration test), `i` the `random.choice` index of
the exploration branch, `r2` the exploitation draw `rand_val`, and `j` the
`random.choice` index of the rounding-guard fallback.  The Python method
mutates nothing; the returned state equals the input state, made explicit so
that absence of side effects is a statable property. -/
def FoxyBrain.choose_action (s : FoxyBrain) (r1 : ℚ) (i : Fin 4) (r2 : ℚ)
    (j : Fin 4) : String × FoxyBrain :=
  if r1 < s.exploration_rate then (actionAt i, s)
  else
    match cumSelect r2
        (s.weights.map (fun p => (p.1, p.2 / (s.weights.map Prod.snd).sum))) 0 with
    | some a => (a, s)
    | none => (actionAt j, s)

/-- `FoxyBrain.give_feedback` (lines 93-110).  The returned Bool records
whether `save_brain` was invoked (it is called exactly when the action is a
member of the learnable set). -/
def FoxyBrain.give_feedback (s : FoxyBrain) (action : String)
    (positive : Bool) : FoxyBrain × Bool :=
  if action ∈ initActions then
    let s1 : FoxyBrain :=
      { s with action_counts := dset action (dget action 0 s.action_counts + 1) s.action_counts }
    let s2 : FoxyBrain :=
      if positive then
        { s1 with
            weights := dset action (dget action 0 s1.weights + learning_rate_positive) s1.weights
            positive_feedback :=
              dset action (dget action 0 s1.positive_feedback + 1) s1.positive_feedback }
      else
        { s1 with
            weights :=
              dset action (max (1/10) (dget action 0 s1.weights - learning_rate_negative)) s1.weights }
    (s2, true)
  else (s, false)

/-- Folding a list of `(action, positive)` feedback events through
`give_feedback`, discarding the persistence flags. -/
def applyFeedbacks (s : FoxyBrain) (events : List (String × Bool)) : FoxyBrain :=
  events.foldl (fun st e => (st.give_feedback e.1 e.2).1) s

/-- The persisted document written by `FoxyBrain.save_brain`
(lines 112-121): keys `weights`, `action_counts`, `positive_feedback`.
Fields are `Option`s because `load_brain` reads each with
`data.get(key, current)`. -/
structure BrainDoc where
  weights : Option (List (String × ℚ))
  action_counts : Option (List (String × ℕ))
  positive_feedback : Option (List (String × ℕ))
deriving DecidableEq, Repr

/-- `FoxyBrain.save_brain` (lines 112-121): the document that is serialized. -/
def FoxyBrain.save_brain (s : FoxyBrain) : BrainDoc :=
  { weights := some s.weights
    action_counts := some s.action_counts
    positive_feedback := some s.positive_feedback }

/-- `FoxyBrain.load_brain` (lines 123-134), in the case where the save file
exists and parses: each field is taken from the document when present,
otherwise kept (`data.get(key, self.field)`). -/
def FoxyBrain.load_brain (s : FoxyBrain) (d : BrainDoc) : FoxyBrain :=
  { s with
      weights := d.weights.getD s.weights
      action_counts := d.action_counts.getD s.action_counts
      positive_feedback := d.positive_feedback.getD s.positive_feedback }

/-- Sum of the second components of the first `n` entries — the running
cumulative mass after `n` iterations of the selection loop. -/
def takeSum (l : List (String × ℚ)) (n : ℕ) : ℚ :=
  ((l.take n).map Prod.snd).sum

/-- Cumulative normalized weight of the first `n` actions, in the weight
dictionary's iteration order: `sum of (w / total) over the first n entries`. -/
def FoxyBrain.normCum (s : FoxyBrain) (n : ℕ) : ℚ :=
  takeSum (s.weights.map (fun p => (p.1, p.2 / (s.weights.map Prod.snd).sum))) n

theorem takeSum_cons (p : String × ℚ) (rest : List (String × ℚ)) (n : ℕ) :
    takeSum (p :: rest) (n + 1) = p.2 + takeSum rest n := by
  simp [takeSum]

/-- Unfolding `give_feedback` for a non-member action: the guard
`if action not in self.actions: return` fires before any mutation and
before `save_brain`. -/
theorem gf_nonmember (s : FoxyBrain) (a : String) (p : Bool)
    (h : a ∉ initActions) : s.give_feedback a p = (s, false) := by
  simp [FoxyBrain.give_feedback, h]

/-- Unfolding `give_feedback` for a member action: the counter always
increments, the weight moves up by `learning_rate_positive` or down
(clamped at 0.1) by `learning_rate_negative`, the positive-feedback counter
increments only on positive feedback, the exploration rate is untouched,
and `save_brain` runs. -/
theorem gf_member (s : FoxyBrain) (a : String) (p : Bool)
    (h : a ∈ initActions) :
    s.give_feedback a p =
      ({ weights :=
           if p then dset a (dget a 0 s.weights + learning_rate_positive) s.weights
           else dset a (max (1/10) (dget a 0 s.weights - learning_rate_negative)) s.weights
         action_counts := dset a (dget a 0 s.action_counts + 1) s.action_counts
         positive_feedback :=
           if p then dset a (dget a 0 s.positive_feedback + 1) s.positive_feedback
           else s.positive_feedback
         exploration_rate := s.exploration_rate }, true) := by
  cases p <;> simp [FoxyBrain.give_feedback, h]

theorem applyFeedbacks_nil (s : FoxyBrain) : applyFeedbacks s [] = s := rfl

theorem applyFeedbacks_cons (s : FoxyBrain) (e : String × Bool)
    (l : List (String × Bool)) :
    applyFeedbacks s (e :: l) = applyFeedbacks (s.give_feedback e.1 e.2).1 l := rfl

theorem applyFeedbacks_append (s : FoxyBrain) (l1 l2 : List (String × Bool)) :
    applyFeedbacks s (l1 ++ l2) = applyFeedbacks (applyFeedbacks s l1) l2 := by
  simp [applyFeedbacks, List.foldl_append]

/-- A feedback event for action `b` leaves every other action's weight
unchanged. -/
theorem gf_weight_other (s : FoxyBrain) (a b : String) (p : Bool)
    (hab : a ≠ b) :
    dget a 0 ((s.give_feedback b p).1).weights = dget a 0 s.weights := by
  by_cases hb : b ∈ initActions
  · rw [gf_member s b p hb]
    cases p <;> simp [dget_dset_ne _ _ _ _ _ hab]
  · rw [gf_nonmember s b p hb]

/-- Repeated feedback for action `b` leaves every other action's weight
unchanged. -/
theorem applyFeedbacks_weight_other (n : ℕ) (s : FoxyBrain) (a b : String)
    (p : Bool) (hab : a ≠ b) :
    dget a 0 (applyFeedbacks s (List.replicate n (b, p))).weights =
      dget a 0 s.weights := by
  induction n generalizing s with
  | zero => rfl
  | succ n ih =>
    rw [List.replicate_succ, applyFeedbacks_cons]
    rw [ih ((s.give_feedback b p).1)]
    exact gf_weight_other s a b p hab

/-- `n` positive feedback events for a member action add exactly
`n * learning_rate_positive` to its weight. -/
theorem applyFeedbacks_pos_weight (n : ℕ) (s : FoxyBrain) (a : String)
    (h : a ∈ initActions) :
    dget a 0 (applyFeedbacks s (List.replicate n (a, true))).weights =
      dget a 0 s.weights + n * learning_rate_positive := by
  induction n generalizing s with
  | zero => simp [applyFeedbacks_nil]
  | succ n ih =>
    rw [List.replicate_succ, applyFeedbacks_cons, ih ((s.give_feedback a true).1)]
    rw [gf_member s a true h]
    simp [dget_dset_self]
    ring

/-- `n` negative feedback events for a member action whose weight stays
above the floor throughout subtract exactly `n * learning_rate_negative`. -/
theorem applyFeedbacks_neg_weight (n : ℕ) (s : FoxyBrain) (a : String)
    (h : a ∈ initActions)
    (hw : 1/10 + n * learning_rate_negative ≤ dget a 0 s.weights) :
    dget a 0 (applyFeedbacks s (List.replicate n (a, false))).weights =
      dget a 0 s.weights - n * learning_rate_negative := by
  induction n generalizing s with
  | zero => simp [applyFeedbacks_nil]
  | succ n ih =>
    rw [List.replicate_succ, applyFeedbacks_cons]
    have hstep : dget a 0 ((s.give_feedback a false).1).weights =
        dget a 0 s.weights - learning_rate_negative := by
      rw [gf_member s a false h]
      simp only [if_neg Bool.false_ne_true, dget_dset_self, Bool.false_eq_true,
        if_false]
      have : (1:ℚ)/10 ≤ dget a 0 s.weights - learning_rate_negative := by
        have hn : (0:ℚ) ≤ n * learning_rate_negative :=
          mul_nonneg (Nat.cast_nonneg n) (by norm_num [learning_rate_negative])
        push_cast at hw
        linarith [hw]
      exact max_eq_right this
    rw [ih ((s.give_feedback a false).1)]
    · rw [hstep]; push_cast; ring
    · rw [hstep]
      push_cast at hw ⊢
      linarith

/-! ## Learned variant: `FoxyBrainDQN` (`foxy_mainDQN.py`) -/

/-- One replay-memory entry `(state, action, reward, next_state, done)`,
as pushed by `FoxyBrainDQN.give_feedback`. -/
abbrev Transition : Type := List ℚ × ℕ × ℚ × List ℚ × Bool

/-- `ReplayBuffer` (lines 30-46): a `deque(maxlen=capacity)`, oldest entry
first. -/
structure ReplayBuffer (T : Type) where
  capacity : ℕ
  buffer : List T
deriving DecidableEq, Repr

/-- `ReplayBuffer.push` — `deque.append` on a `deque(maxlen=capacity)`:
append the new entry and keep only the most recent `capacity` entries. -/
def ReplayBuffer.push (b : ReplayBuffer T) (x : T) : ReplayBuffer T :=
  { b with buffer := (b.buffer ++ [x]).drop (b.buffer.length + 1 - b.capacity) }

/-- `self.batch_size = 32`. -/
def batch_size : ℕ := 32

/-- The mutable state of `FoxyBrainDQN` (lines 52-96).  `P` is the abstract
type of one network's parameter blob (a torch `state_dict`); `policy_net`
and `target_net` hold one blob each. -/
structure DQNBrain (P : Type) where
  policy_net : P
  target_net : P
  memory : ReplayBuffer Transition
  action_counts : List (String × ℕ)
  positive_feedback : List (String × ℕ)
  total_clicks : ℕ
  total_actions : ℕ
  last_click_time : ℕ
  current_time : ℕ
  epsilon : ℚ
  current_state : Option (List ℚ)
  current_action_idx : Option (Fin 4)

/-- `FoxyBrainDQN.__init__` before `load_brain`: both networks start from
the same parameters (`target_net.load_state_dict(policy_net.state_dict())`),
the replay buffer has capacity 2000, counters are zero and ε = 1.0. -/
def DQNBrain.init (p0 : P) : DQNBrain P :=
  { policy_net := p0
    target_net := p0
    memory := { capacity := 2000, buffer := [] }
    action_counts := initActions.map (fun a => (a, 0))
    positive_feedback := initActions.map (fun a => (a, 0))
    total_clicks := 0
    total_actions := 0
    last_click_time := 0
    current_time := 0
    epsilon := 1
    current_state := none
    current_action_idx := none }

/-- `FoxyBrainDQN.get_state` (lines 98-117): the 8-entry feature vector. -/
def DQNBrain.get_state (sd : DQNBrain P) : List ℚ :=
  let time_normalized : ℚ := ((sd.current_time % 1000 : ℕ) : ℚ) / 1000
  let recency : ℚ :=
    min (((sd.current_time : ℚ) - (sd.last_click_time : ℚ)) / 500) 1
  let click_rate : ℚ := (sd.total_clicks : ℚ) / ((max sd.total_actions 1 : ℕ) : ℚ)
  let total_count : ℚ := (((sd.action_counts.map Prod.snd).sum : ℕ) : ℚ) + 1
  let action_dist : List ℚ :=
    initActions.map (fun a => ((dget a 0 sd.action_counts : ℕ) : ℚ) / total_count)
  let success_rate : ℚ :=
    ((dget "excited" 0 sd.positive_feedback : ℕ) : ℚ) /
      ((max (dget "excited" 1 sd.action_counts) 1 : ℕ) : ℚ)
  [time_normalized, recency, click_rate, success_rate] ++ action_dist

/-- `FoxyBrainDQN.choose_action` (lines 119-140).  `q` abstracts the
ε-greedy exploitation readout `policy_net(state).argmax()` (a pure function
of the online parameters and the feature vector), `r` is the
`random.random()` draw and `i` the `random.randint(0, 3)` draw. -/
def DQNBrain.choose_action (q : P → List ℚ → Fin 4) (sd : DQNBrain P)
    (r : ℚ) (i : Fin 4) : String × DQNBrain P :=
  let sd1 : DQNBrain P := { sd with current_time := sd.current_time + 1 }
  let st : List ℚ := sd1.get_state
  let sd2 : DQNBrain P := { sd1 with current_state := some st }
  let idx : Fin 4 := if r < sd2.epsilon then i else q sd2.policy_net st
  let action : String := actionAt idx
  (action,
    { sd2 with
        current_action_idx := some idx
        action_counts := dset action (dget action 0 sd2.action_counts + 1) sd2.action_counts
        total_actions := sd2.total_actions + 1 })

/-- `FoxyBrainDQN.train` (lines 176-208).  `g` abstracts one minibatch
gradient step on the online parameters (uniform sampling of the batch,
forward/backward pass and optimizer step); the target network is read by
the step but only ever written by the synchronization branch. -/
def DQNBrain.train (g : P → List Transition → P) (sd : DQNBrain P) :
    DQNBrain P :=
  if sd.memory.buffer.length < batch_size then sd
  else
    let sd1 : DQNBrain P := { sd with policy_net := g sd.policy_net sd.memory.buffer }
    if sd1.total_actions % 100 = 0 then { sd1 with target_net := sd1.policy_net }
    else sd1

/-- The positive-feedback bookkeeping of `FoxyBrainDQN.give_feedback`
(lines 149-158): on positive feedback bump the per-action and total click
counters and record the click time; on negative feedback change nothing. -/
def DQNBrain.feedback_stats (sd : DQNBrain P) (action : String)
    (positive : Bool) : DQNBrain P :=
  if positive then
    { sd with
        positive_feedback :=
          dset action (dget action 0 sd.positive_feedback + 1) sd.positive_feedback
        total_clicks := sd.total_clicks + 1
        last_click_time := sd.current_time }
  else sd

/-- Lines 164-166 of `FoxyBrainDQN.give_feedback`: store the experience in
replay memory, but only when a previous `choose_action` recorded a current
state. -/
def DQNBrain.push_transition (sd : DQNBrain P) (aidx : ℕ) (reward : ℚ)
    (ns : List ℚ) : DQNBrain P :=
  match sd.current_state with
  | some cs => { sd with memory := sd.memory.push (cs, aidx, reward, ns, false) }
  | none => sd

/-- `FoxyBrainDQN.give_feedback` (lines 142-174): guard on membership,
reward `+1.0`/`-0.1`, click bookkeeping, next-state computation, replay
push, training step, multiplicative ε decay with floor 0.1, save.  The
returned Bool records whether `save_brain` was invoked. -/
def DQNBrain.give_feedback (g : P → List Transition → P) (sd : DQNBrain P)
    (action : String) (positive : Bool) : DQNBrain P × Bool :=
  if action ∈ initActions then
    let sd1 : DQNBrain P := sd.feedback_stats action positive
    let sd2 : DQNBrain P :=
      sd1.push_transition (initActions.indexOf action)
        (if positive then 1 else -1/10) sd1.get_state
    let sd3 : DQNBrain P := DQNBrain.train g sd2
    ({ sd3 with epsilon := max (1/10) (sd3.epsilon * (995/1000)) }, true)
  else (sd, false)

/-! ### Structural lemmas about the DQN operations -/

theorem feedback_stats_target (sd : DQNBrain P) (a : String) (p : Bool) :
    (sd.feedback_stats a p).target_net = sd.target_net := by
  cases p <;> rfl

theorem feedback_stats_policy (sd : DQNBrain P) (a : String) (p : Bool) :
    (sd.feedback_stats a p).policy_net = sd.policy_net := by
  cases p <;> rfl

theorem feedback_stats_epsilon (sd : DQNBrain P) (a : String) (p : Bool) :
    (sd.feedback_stats a p).epsilon = sd.epsilon := by
  cases p <;> rfl

theorem feedback_stats_total_actions (sd : DQNBrain P) (a : String) (p : Bool) :
    (sd.feedback_stats a p).total_actions = sd.total_actions := by
  cases p <;> rfl

theorem push_transition_target (sd : DQNBrain P) (aidx : ℕ) (reward : ℚ)
    (ns : List ℚ) : (sd.push_transition aidx reward ns).target_net = sd.target_net := by
  unfold DQNBrain.push_transition
  cases sd.current_state <;> rfl

theorem push_transition_policy (sd : DQNBrain P) (aidx : ℕ) (reward : ℚ)
    (ns : List ℚ) : (sd.push_transition aidx reward ns).policy_net = sd.policy_net := by
  unfold DQNBrain.push_transition
  cases sd.current_state <;> rfl

theorem push_transition_epsilon (sd : DQNBrain P) (aidx : ℕ) (reward : ℚ)
    (ns : List ℚ) : (sd.push_transition aidx reward ns).epsilon = sd.epsilon := by
  unfold DQNBrain.push_transition
  cases sd.current_state <;> rfl

theorem push_transition_total_actions (sd : DQNBrain P) (aidx : ℕ) (reward : ℚ)
    (ns : List ℚ) :
    (sd.push_transition aidx reward ns).total_actions = sd.total_actions := by
  unfold DQNBrain.push_transition
  cases sd.current_state <;> rfl

theorem train_epsilon (g : P → List Transition → P) (sd : DQNBrain P) :
    (DQNBrain.train g sd).epsilon = sd.epsilon := by
  unfold DQNBrain.train
  split
  · rfl
  · dsimp only
    split <;> rfl

theorem train_total_actions (g : P → List Transition → P) (sd : DQNBrain P) :
    (DQNBrain.train g sd).total_actions = sd.total_actions := by
  unfold DQNBrain.train
  split
  · rfl
  · dsimp only
    split <;> rfl

/-- The target network is either left alone by a training step or set equal
to the (freshly updated) online network. -/
theorem train_target_dichotomy (g : P → List Transition → P) (sd : DQNBrain P) :
    (DQNBrain.train g sd).target_net = sd.target_net ∨
      (DQNBrain.train g sd).target_net = (DQNBrain.train g sd).policy_net := by
  unfold DQNBrain.train
  split
  · exact Or.inl rfl
  · dsimp only
    split
    · exact Or.inr rfl
    · exact Or.inl rfl

/-- Unfolding `give_feedback` for a member action into its stage functions. -/
theorem gfd_member (g : P → List Transition → P) (sd : DQNBrain P)
    (a : String) (p : Bool) (h : a ∈ initActions) :
    DQNBrain.give_feedback g sd a p =
      ({ DQNBrain.train g
            ((sd.feedback_stats a p).push_transition (initActions.indexOf a)
              (if p then 1 else -1/10) (sd.feedback_stats a p).get_state) with
          epsilon :=
            max (1/10)
              ((DQNBrain.train g
                  ((sd.feedback_stats a p).push_transition (initActions.indexOf a)
                    (if p then 1 else -1/10) (sd.feedback_stats a p).get_state)).epsilon *
                (995/1000)) }, true) := by
  simp only [DQNBrain.give_feedback, if_pos h]

/-! ### C6 — save/load round trip -/

/-- C6: in the simple variant, persisting the brain state and loading the
resulting `{weights, action_counts, positive_feedback}` document back
(into any brain state) restores exactly the weights, action counts and
positive-feedback counts that were saved. -/
theorem save_load_round_trip (s t : FoxyBrain) :
    (t.load_brain s.save_brain).weights = s.weights ∧
    (t.load_brain s.save_brain).action_counts = s.action_counts ∧
    (t.load_brain s.save_brain).positive_feedback = s.positive_feedback := by
  simp [FoxyBrain.load_brain, FoxyBrain.save_brain]

/-! ### C7 — unknown action is a silent no-op -/

/-- C7: in both variants, `give_feedback` with an action outside the
learnable set returns the state unchanged and does not persist anything
(the Bool component records whether `save_brain` ran). -/
theorem give_feedback_unknown_action_noop (s : FoxyBrain) (P : Type)
    (g : P → List Transition → P) (sd : DQNBrain P) (a : String)
    (p p2 : Bool) (h : a ∉ initActions) :
    s.give_feedback a p = (s, false) ∧
    DQNBrain.give_feedback g sd a p2 = (sd, false) :=
  ⟨gf_nonmember s a p h, by simp [DQNBrain.give_feedback, h]⟩

theorem give_feedback_unknown_action_noop_witness :
    initBrain.give_feedback "idle" true = (initBrain, false) ∧
    DQNBrain.give_feedback (fun (v : ℕ) (_ : List Transition) => v)
      (DQNBrain.init 0) "idle" false = (DQNBrain.init 0, false) :=
  give_feedback_unknown_action_noop initBrain ℕ
    (fun v _ => v) (DQNBrain.init 0) "idle" true false (by decide)

/-! ### C8 — ε decay rule -/

/-- C8: in the learned variant, every `give_feedback` call for a member
action sets ε to `max(0.1, 0.995 * ε)`; in the simple variant the
exploration rate is never changed by `give_feedback`. -/
theorem epsilon_decay_rule (P : Type) (g : P → List Transition → P)
    (sd : DQNBrain P) (a : String) (p : Bool) (h : a ∈ initActions)
    (s : FoxyBrain) (a2 : String) (p2 : Bool) :
    (DQNBrain.give_feedback g sd a p).1.epsilon =
      max (1/10) (sd.epsilon * (995/1000)) ∧
    (s.give_feedback a2 p2).1.exploration_rate = s.exploration_rate := by
  constructor
  · rw [gfd_member g sd a p h]
    show max (1/10) ((DQNBrain.train g _).epsilon * (995/1000)) = _
    rw [train_epsilon, push_transition_epsilon, feedback_stats_epsilon]
  · by_cases hm : a2 ∈ initActions
    · rw [gf_member s a2 p2 hm]
    · rw [gf_nonmember s a2 p2 hm]

theorem epsilon_decay_rule_witness :
    (DQNBrain.give_feedback (fun (v : ℕ) (_ : List Transition) => v)
        (DQNBrain.init 0) "excited" true).1.epsilon =
      max (1/10) ((DQNBrain.init 0).epsilon * (995/1000)) ∧
    (initBrain.give_feedback "walk" false).1.exploration_rate =
      initBrain.exploration_rate :=
  epsilon_decay_rule ℕ (fun v _ => v) (DQNBrain.init 0) "excited" true
    (by decide) initBrain "walk" false

/-! ### C1 — choose_action counter side effects -/

/-- The simple variant's `choose_action` mutates no brain state: every
return path hands back the input state. -/
theorem choose_action_state_id (s : FoxyBrain) (r1 : ℚ) (i : Fin 4)
    (r2 : ℚ) (j : Fin 4) : (s.choose_action r1 i r2 j).2 = s := by
  unfold FoxyBrain.choose_action
  split
  · rfl
  · split <;> rfl

/-- C1 counterexample: in the simple variant, a concrete `choose_action`
call (exploitation draw 0.999 on the uniform initial weights) returns
`walk` but does not increment `action_counts["walk"]` — the claim that
every `choose_action` call in either variant increments the chosen
action's selection counter by one is false for the simple variant. -/
theorem choose_action_simple_no_counter_increment :
    (initBrain.choose_action (1/2) 0 (999/1000) 0).1 = "walk" ∧
    ¬ (dget "walk" 0 (initBrain.choose_action (1/2) 0 (999/1000) 0).2.action_counts =
        dget "walk" 0 initBrain.action_counts + 1) := by
  constructor
  · norm_num [FoxyBrain.choose_action, initBrain, initActions, cumSelect, actionAt,
      dget, dset]
  · rw [choose_action_state_id]
    simp

/-- C1 amended: in the learned variant, `choose_action` increments the
chosen action's selection counter and the total-action counter by exactly
one and leaves the network parameters, positive-feedback counters, ε and
replay memory unchanged; in the simple variant, `choose_action` mutates no
brain state at all (its selection counters are incremented by
`give_feedback` instead, and it has no total-action counter). -/
theorem choose_action_counter_effects (P : Type) (q : P → List ℚ → Fin 4)
    (sd : DQNBrain P) (r : ℚ) (i : Fin 4) (s : FoxyBrain) (r1 : ℚ)
    (i1 : Fin 4) (r2 : ℚ) (j : Fin 4) :
    dget (DQNBrain.choose_action q sd r i).1 0
        (DQNBrain.choose_action q sd r i).2.action_counts =
      dget (DQNBrain.choose_action q sd r i).1 0 sd.action_counts + 1 ∧
    (DQNBrain.choose_action q sd r i).2.total_actions = sd.total_actions + 1 ∧
    (DQNBrain.choose_action q sd r i).2.policy_net = sd.policy_net ∧
    (DQNBrain.choose_action q sd r i).2.target_net = sd.target_net ∧
    (DQNBrain.choose_action q sd r i).2.positive_feedback = sd.positive_feedback ∧
    (DQNBrain.choose_action q sd r i).2.epsilon = sd.epsilon ∧
    (DQNBrain.choose_action q sd r i).2.memory = sd.memory ∧
    (s.choose_action r1 i1 r2 j).2 = s :=
  ⟨dget_dset_self _ _ _ _, rfl, rfl, rfl, rfl, rfl, rfl,
    choose_action_state_id s r1 i1 r2 j⟩

/-! ### C4 — weight floor invariant -/

/-- One feedback event preserves the weight floor of any action. -/
theorem gf_weight_floor_step (s : FoxyBrain) (b : String) (p : Bool)
    (a : String) (h : 1/10 ≤ dget a 0 s.weights) :
    1/10 ≤ dget a 0 ((s.give_feedback b p).1).weights := by
  by_cases hb : b ∈ initActions
  · rw [gf_member s b p hb]
    by_cases hab : a = b
    · subst hab
      cases p
      · simp only [Bool.false_eq_true, if_false, dget_dset_self]
        exact le_max_left _ _
      · simp only [if_true, dget_dset_self]
        have : (0:ℚ) ≤ learning_rate_positive := by
          norm_num [learning_rate_positive]
        calc (1:ℚ)/10 ≤ dget a 0 s.weights := h
          _ ≤ dget a 0 s.weights + learning_rate_positive := by linarith
    · cases p <;> simpa [dget_dset_ne _ _ _ _ _ hab] using h
  · rwa [gf_nonmember s b p hb]

/-- C4: in the simple variant, if an action's weight is at least the floor
0.1, then after any sequence of `give_feedback` calls (positive or
negative, in any order, for any actions) the weight is still at least 0.1;
it never reaches zero. -/
theorem weight_floor_invariant (events : List (String × Bool))
    (s : FoxyBrain) (a : String) (h : 1/10 ≤ dget a 0 s.weights) :
    1/10 ≤ dget a 0 (applyFeedbacks s events).weights := by
  induction events generalizing s with
  | nil => exact h
  | cons e rest ih =>
    rw [applyFeedbacks_cons]
    exact ih _ (gf_weight_floor_step s e.1 e.2 a h)

theorem weight_floor_invariant_witness :
    1/10 ≤ dget "sleep" 0
      (applyFeedbacks initBrain
        [("sleep", false), ("sleep", false), ("walk", true)]).weights :=
  weight_floor_invariant [("sleep", false), ("sleep", false), ("walk", true)]
    initBrain "sleep" (by norm_num [initBrain, initActions, dget])

/-! ### C9 — replay memory capacity and FIFO eviction -/

theorem push_buffer_length_le (b : ReplayBuffer T) (x : T) :
    (b.push x).buffer.length ≤ b.capacity := by
  simp only [ReplayBuffer.push, List.length_drop, List.length_append,
    List.length_singleton]
  omega

/-- C9: the replay memory's length never exceeds its capacity after any
sequence of pushes (starting from any state within capacity), and a push
onto a full buffer evicts the oldest entry: the new buffer is the old one
minus its head, plus the new entry at the back. -/
theorem replay_buffer_capacity_fifo (T : Type) (b : ReplayBuffer T)
    (xs : List T) (x : T) :
    (b.buffer.length ≤ b.capacity →
      (xs.foldl ReplayBuffer.push b).buffer.length ≤ b.capacity) ∧
    (b.buffer.length = b.capacity → 0 < b.capacity →
      (b.push x).buffer = b.buffer.tail ++ [x]) := by
  constructor
  · intro h
    induction xs generalizing b with
    | nil => exact h
    | cons y ys ih =>
      simpa using ih (b.push y) (push_buffer_length_le b y)
  · intro hfull hpos
    have h1 : b.buffer.length + 1 - b.capacity = 1 := by omega
    have h2 : 1 ≤ b.buffer.length := by omega
    simp only [ReplayBuffer.push, h1]
    rw [List.drop_append_of_le_length h2, List.drop_one]

theorem replay_buffer_capacity_fifo_witness :
    ((([3, 4, 5] : List ℕ).foldl ReplayBuffer.push
        ⟨2, [1, 2]⟩).buffer.length ≤ 2) ∧
    ((ReplayBuffer.push ⟨2, [1, 2]⟩ (9 : ℕ)).buffer = [2, 9]) := by
  refine ⟨(replay_buffer_capacity_fifo ℕ ⟨2, [1, 2]⟩ [3, 4, 5] 9).1 (by decide), ?_⟩
  have h := (replay_buffer_capacity_fifo ℕ ⟨2, [1, 2]⟩ [3, 4, 5] 9).2 rfl
    (by decide)
  simpa using h

/-! ### C10 — positive feedback never exceeds selection count -/

/-- One feedback event preserves `positive_feedback ≤ action_counts`
pointwise. -/
theorem gf_pos_le_counts_step (s : FoxyBrain) (e : String × Bool)
    (hinv : ∀ a, dget a 0 s.positive_feedback ≤ dget a 0 s.action_counts) :
    ∀ a, dget a 0 ((s.give_feedback e.1 e.2).1).positive_feedback ≤
      dget a 0 ((s.give_feedback e.1 e.2).1).action_counts := by
  intro a
  by_cases hm : e.1 ∈ initActions
  · rw [gf_member s e.1 e.2 hm]
    by_cases ha : a = e.1
    · subst ha
      cases he : e.2
      · simp only [Bool.false_eq_true, if_false, dget_dset_self]
        exact le_trans (hinv _) (Nat.le_succ _)
      · simp only [if_true, dget_dset_self]
        exact Nat.succ_le_succ (hinv _)
    · cases he : e.2 <;>
        simp only [Bool.false_eq_true, if_false, if_true,
          dget_dset_ne _ _ _ _ _ ha] <;>
        exact hinv a
  · rw [gf_nonmember s e.1 e.2 hm]
    exact hinv a

theorem applyFeedbacks_pos_le_counts (events : List (String × Bool))
    (s : FoxyBrain)
    (hinv : ∀ a, dget a 0 s.positive_feedback ≤ dget a 0 s.action_counts) :
    ∀ a, dget a 0 (applyFeedbacks s events).positive_feedback ≤
      dget a 0 (applyFeedbacks s events).action_counts := by
  induction events generalizing s with
  | nil => exact hinv
  | cons e rest ih =>
    rw [applyFeedbacks_cons]
    exact ih _ (gf_pos_le_counts_step s e hinv)

/-- C10: in the simple variant, `give_feedback` for a member action always
increments that action's selection counter, increments its
positive-feedback counter exactly on positive feedback, and hence,
starting from the all-zero initial counters, `positive_feedback[a] ≤
action_counts[a]` holds for every action after any sequence of
`give_feedback` calls. -/
theorem positive_feedback_le_action_counts (events : List (String × Bool))
    (a : String) (s : FoxyBrain) (b : String) (hb : b ∈ initActions) :
    dget a 0 (applyFeedbacks initBrain events).positive_feedback ≤
      dget a 0 (applyFeedbacks initBrain events).action_counts ∧
    (∀ p, dget b 0 ((s.give_feedback b p).1).action_counts =
      dget b 0 s.action_counts + 1) ∧
    dget b 0 ((s.give_feedback b true).1).positive_feedback =
      dget b 0 s.positive_feedback + 1 ∧
    dget b 0 ((s.give_feedback b false).1).positive_feedback =
      dget b 0 s.positive_feedback := by
  refine ⟨?_, ?_, ?_, ?_⟩
  · refine applyFeedbacks_pos_le_counts events initBrain (fun a' => ?_) a
    simp [initBrain, initActions, dget]
  · intro p
    rw [gf_member s b p hb]
    cases p <;> simp [dget_dset_self]
  · rw [gf_member s b true hb]
    simp [dget_dset_self]
  · rw [gf_member s b false hb]
    simp

theorem positive_feedback_le_action_counts_witness :
    (dget "excited" 0
        (applyFeedbacks initBrain [("excited", true), ("sleep", false)]).positive_feedback ≤
      dget "excited" 0
        (applyFeedbacks initBrain [("excited", true), ("sleep", false)]).action_counts) ∧
    dget "excited" 0 ((initBrain.give_feedback "excited" true).1).action_counts =
      dget "excited" 0 initBrain.action_counts + 1 :=
  ⟨(positive_feedback_le_action_counts [("excited", true), ("sleep", false)]
      "excited" initBrain "excited" (by decide)).1,
    (positive_feedback_le_action_counts [("excited", true), ("sleep", false)]
      "excited" initBrain "excited" (by decide)).2.1 true⟩

/-! ### C3 — end-to-end 10+10 feedback scenario -/

/-- The spec's end-to-end scenario: ten positive observations for
`excited`, then ten negative observations for `sleep`. -/
def scenarioEvents : List (String × Bool) :=
  List.replicate 10 ("excited", true) ++ List.replicate 10 ("sleep", false)

/-- Under exact rational arithmetic the scenario totals are 5/2 and 1/2 —
the values the spec's `1.0 + 10*0.15` / `1.0 - 10*0.05` arithmetic means
ideally. -/
theorem scenario_weights_exact :
    dget "excited" 0 (applyFeedbacks initBrain scenarioEvents).weights = 5/2 ∧
    dget "sleep" 0 (applyFeedbacks initBrain scenarioEvents).weights = 1/2 := by
  constructor
  · rw [scenarioEvents, applyFeedbacks_append]
    rw [applyFeedbacks_weight_other 10 _ "excited" "sleep" false (by decide)]
    rw [applyFeedbacks_pos_weight 10 initBrain "excited" (by decide)]
    norm_num [initBrain, initActions, dget, learning_rate_positive]
  · rw [scenarioEvents, applyFeedbacks_append]
    have h1 : dget "sleep" 0
        (applyFeedbacks initBrain (List.replicate 10 ("excited", true))).weights = 1 := by
      rw [applyFeedbacks_weight_other 10 initBrain "sleep" "excited" true (by decide)]
      norm_num [initBrain, initActions, dget]
    rw [applyFeedbacks_neg_weight 10 _ "sleep" (by decide)
      (by rw [h1]; norm_num [learning_rate_negative])]
    rw [h1]
    norm_num [learning_rate_negative]

/-!
The program runs `FoxyBrain.give_feedback`'s weight arithmetic on Python
floats, i.e. IEEE-754 binary64: `w + 0.15` and `w - 0.05` round the exact
result to 53 significand bits (round to nearest, ties to even), and the
literals `0.15`, `0.05`, `0.1` denote the binary64 values nearest to those
decimals.  The following model represents a non-negative binary64 value as
an integer significand times a power of two and performs that rounding
exactly.  No overflow, underflow or subnormal arises in the embedded
weight range, so the exponent is left unbounded.
-/

/-- Number of halvings needed to bring `m` under `2^53` — the amount by
which an exact-result significand must be shifted to fit the 53-bit
format (fuel-bounded recursion; the fuel is never exhausted for the sizes
that arise). -/
def sigShift : ℕ → ℕ → ℕ
  | 0, _ => 0
  | fuel+1, m => if m < 2^53 then 0 else sigShift fuel (m / 2) + 1

/-- Round a non-negative exact significand to 53 bits, round to nearest
with ties to even; returns the rounded significand and the exponent
increment. -/
def roundSig (m : ℕ) : ℕ × ℕ :=
  let k := sigShift 2200 m
  if k = 0 then (m, 0)
  else
    let d := 2^k
    let q0 := m / d
    let r := m % d
    let q : ℕ :=
      if 2*r < d then q0
      else if d < 2*r then q0 + 1
      else if q0 % 2 = 0 then q0 else q0 + 1
    if q = 2^53 then (2^52, k+1) else (q, k)

/-- A non-negative binary64 value `m * 2^e`. -/
structure FP where
  m : ℕ
  e : ℤ
deriving DecidableEq, Repr

/-- The exact rational value of a binary64 datum. -/
def FP.val (x : FP) : ℚ := (x.m : ℚ) * (2:ℚ)^x.e

/-- Binary64 addition: round the exact sum (obtained by aligning the two
significands at the smaller exponent) to 53 bits. -/
def fpAdd (x y : FP) : FP :=
  let e := min x.e y.e
  let M := x.m * 2^((x.e - e).toNat) + y.m * 2^((y.e - e).toNat)
  let p := roundSig M
  ⟨p.1, e + p.2⟩

/-- Binary64 subtraction for minuend ≥ subtrahend (which holds at every
subtraction of the embedded trace): round the exact difference to 53
bits. -/
def fpSub (x y : FP) : FP :=
  let e := min x.e y.e
  let M := x.m * 2^((x.e - e).toNat) - y.m * 2^((y.e - e).toNat)
  let p := roundSig M
  ⟨p.1, e + p.2⟩

/-- Python `max(a, b)`: returns `b` exactly when `b > a` (values compared
exactly; floats compare by value). -/
def fpMax (x y : FP) : FP :=
  let e := min x.e y.e
  if x.m * 2^((x.e - e).toNat) < y.m * 2^((y.e - e).toNat) then y else x

/-- Integer division rounded to nearest, ties to even. -/
def divNE (a b : ℕ) : ℕ :=
  let q0 := a / b
  let r := a % b
  if 2*r < b then q0
  else if b < 2*r then q0 + 1
  else if q0 % 2 = 0 then q0 else q0 + 1

/-- Smallest `n` with `q * 2^52 ≤ p * 2^n` (fuel-bounded) — the scaling
that places `p/q` in the 53-bit significand window. -/
def litShift : ℕ → ℕ → ℕ → ℕ
  | 0, _, _ => 0
  | fuel+1, p, q => if q * 2^52 ≤ p then 0 else litShift fuel (2*p) q + 1

/-- The binary64 value nearest to the positive rational `p/q` (for
`0 < p/q < 2^52`) — what a Python float literal such as `0.15` denotes. -/
def fpOfRat (p q : ℕ) : FP :=
  let n := litShift 2200 p q
  let m := divNE (p * 2^n) q
  if m = 2^53 then ⟨2^52, -(n:ℤ) + 1⟩ else ⟨m, -(n:ℤ)⟩

/-- The double `1.0`. -/
def fpOne : FP := fpOfRat 1 1

/-- The double written `0.15` in the source. -/
def fpLrPos : FP := fpOfRat 3 20

/-- The double written `0.05` in the source. -/
def fpLrNeg : FP := fpOfRat 1 20

/-- The double written `0.1` in the source (the weight floor). -/
def fpTenth : FP := fpOfRat 1 10

/-- Zero, used as the lookup default (never hit for member actions). -/
def fpZero : FP := ⟨0, 0⟩

/-- `FoxyBrain` state with the weights carried as binary64 values, as the
Python process actually stores them. -/
structure FoxyBrainF where
  weights : List (String × FP)
  action_counts : List (String × ℕ)
  positive_feedback : List (String × ℕ)
  exploration_rate : FP
deriving DecidableEq, Repr

/-- `FoxyBrain.give_feedback` (foxy_main.py lines 93-110) with the weight
arithmetic performed in binary64: `weights[action] += 0.15` is a rounded
float addition and `max(0.1, weights[action] - 0.05)` is a rounded float
subtraction followed by Python `max`. -/
def FoxyBrainF.give_feedback (s : FoxyBrainF) (action : String)
    (positive : Bool) : FoxyBrainF × Bool :=
  if action ∈ initActions then
    let s1 : FoxyBrainF :=
      { s with action_counts := dset action (dget action 0 s.action_counts + 1) s.action_counts }
    let s2 : FoxyBrainF :=
      if positive then
        { s1 with
            weights := dset action (fpAdd (dget action fpZero s1.weights) fpLrPos) s1.weights
            positive_feedback :=
              dset action (dget action 0 s1.positive_feedback + 1) s1.positive_feedback }
      else
        { s1 with
            weights :=
              dset action (fpMax fpTenth (fpSub (dget action fpZero s1.weights) fpLrNeg)) s1.weights }
    (s2, true)
  else (s, false)

/-- Folding feedback events through the binary64 variant. -/
def applyFeedbacksF (s : FoxyBrainF) (events : List (String × Bool)) : FoxyBrainF :=
  events.foldl (fun st e => (st.give_feedback e.1 e.2).1) s

/-- `FoxyBrain.__init__` with binary64 weights: every weight is the double
`1.0`. -/
def initBrainF : FoxyBrainF :=
  { weights := initActions.map (fun a => (a, fpOne))
    action_counts := initActions.map (fun a => (a, 0))
    positive_feedback := initActions.map (fun a => (a, 0))
    exploration_rate := fpOfRat 1 2 }

theorem gfF_member (s : FoxyBrainF) (a : String) (p : Bool)
    (h : a ∈ initActions) :
    s.give_feedback a p =
      ({ weights :=
           if p then dset a (fpAdd (dget a fpZero s.weights) fpLrPos) s.weights
           else dset a (fpMax fpTenth (fpSub (dget a fpZero s.weights) fpLrNeg)) s.weights
         action_counts := dset a (dget a 0 s.action_counts + 1) s.action_counts
         positive_feedback :=
           if p then dset a (dget a 0 s.positive_feedback + 1) s.positive_feedback
           else s.positive_feedback
         exploration_rate := s.exploration_rate }, true) := by
  cases p <;> simp [FoxyBrainF.give_feedback, h]

set_option maxRecDepth 8192 in
/-- C3 counterexample: in the binary64 arithmetic the program actually
runs, the 10+10 scenario ends with `weight[excited]` equal to the double
2.499999999999999 and `weight[sleep]` equal to the double
0.4999999999999996 — neither equals the claimed 2.5 and 0.5. -/
theorem feedback_scenario_weights_float_cex :
    FP.val (dget "excited" fpZero
        (applyFeedbacksF initBrainF scenarioEvents).weights) ≠ 5/2 ∧
    FP.val (dget "sleep" fpZero
        (applyFeedbacksF initBrainF scenarioEvents).weights) ≠ 1/2 := by
  have he : dget "excited" fpZero
      (applyFeedbacksF initBrainF scenarioEvents).weights =
        ⟨5629499534213118, -51⟩ := by decide
  have hs : dget "sleep" fpZero
      (applyFeedbacksF initBrainF scenarioEvents).weights =
        ⟨9007199254740985, -54⟩ := by decide
  rw [he, hs]
  constructor
  · norm_num [FP.val]
  · norm_num [FP.val]

set_option maxRecDepth 8192 in
/-- C3 amended: starting from the uniform binary64 weights 1.0, ten
positive feedbacks for `excited` and ten negative feedbacks for `sleep`
yield, in the program's IEEE-754 double arithmetic,
`weight[excited] = 5629499534213118·2^-51 = 2.5 - 2^-50`
(= 2.499999999999999) and
`weight[sleep] = 9007199254740985·2^-54 = 0.5 - 7·2^-54`
(= 0.4999999999999996) — not exactly 2.5 and 0.5, which are the totals of
the same updates under exact rational arithmetic; each positive update
adds the double 0.15 with rounding, and each negative update subtracts the
double 0.05 with rounding, clamped below at the double 0.1. -/
theorem feedback_scenario_weights_float :
    (dget "excited" fpZero
        (applyFeedbacksF initBrainF scenarioEvents).weights =
          ⟨5629499534213118, -51⟩ ∧
      FP.val ⟨5629499534213118, -51⟩ = 5/2 - 1/2^50) ∧
    (dget "sleep" fpZero
        (applyFeedbacksF initBrainF scenarioEvents).weights =
          ⟨9007199254740985, -54⟩ ∧
      FP.val ⟨9007199254740985, -54⟩ = 1/2 - 7/2^54) ∧
    (dget "excited" 0 (applyFeedbacks initBrain scenarioEvents).weights = 5/2 ∧
     dget "sleep" 0 (applyFeedbacks initBrain scenarioEvents).weights = 1/2) ∧
    (∀ (s : FoxyBrainF) (a : String), a ∈ initActions →
      dget a fpZero ((s.give_feedback a true).1).weights =
        fpAdd (dget a fpZero s.weights) fpLrPos) ∧
    (∀ (s : FoxyBrainF) (a : String), a ∈ initActions →
      dget a fpZero ((s.give_feedback a false).1).weights =
        fpMax fpTenth (fpSub (dget a fpZero s.weights) fpLrNeg)) := by
  refine ⟨⟨by decide, by norm_num [FP.val]⟩, ⟨by decide, by norm_num [FP.val]⟩,
    scenario_weights_exact, ?_, ?_⟩
  · intro s a h
    rw [gfF_member s a true h]
    simp [dget_dset_self]
  · intro s a h
    rw [gfF_member s a false h]
    simp [dget_dset_self]

theorem feedback_scenario_weights_float_witness :
    dget "excited" fpZero
        ((initBrainF.give_feedback "excited" true).1).weights =
      fpAdd (dget "excited" fpZero initBrainF.weights) fpLrPos ∧
    dget "sleep" fpZero
        ((initBrainF.give_feedback "sleep" false).1).weights =
      fpMax fpTenth (fpSub (dget "sleep" fpZero initBrainF.weights) fpLrNeg) :=
  ⟨feedback_scenario_weights_float.2.2.2.1 initBrainF "excited" (by decide),
   feedback_scenario_weights_float.2.2.2.2 initBrainF "sleep" (by decide)⟩

/-! ### C5 — cumulative-probability selection order -/

theorem takeSum_zero (l : List (String × ℚ)) : takeSum l 0 = 0 := by
  simp [takeSum]

/-- The selection loop returns the entry at the least index whose running
cumulative mass (starting from `acc`) meets or exceeds the draw. -/
theorem cumSelect_first (r : ℚ) (l : List (String × ℚ)) :
    ∀ (acc : ℚ) (k : ℕ) (hk : k < l.length),
      r ≤ acc + takeSum l (k+1) →
      (∀ m, m < k → ¬ r ≤ acc + takeSum l (m+1)) →
      cumSelect r l acc = some (l.get ⟨k, hk⟩).1 := by
  induction l with
  | nil =>
    intro acc k hk
    simp at hk
  | cons p rest ih =>
    intro acc k hk hub hlb
    cases k with
    | zero =>
      have h0 : r ≤ acc + p.2 := by
        have := hub
        rwa [takeSum_cons, takeSum_zero, add_zero] at this
      simp [cumSelect, h0]
    | succ k' =>
      have h0 : ¬ r ≤ acc + p.2 := by
        have := hlb 0 (Nat.succ_pos k')
        rwa [takeSum_cons, takeSum_zero, add_zero] at this
      have hk' : k' < rest.length := by simpa using hk
      have hub' : r ≤ (acc + p.2) + takeSum rest (k'+1) := by
        rw [takeSum_cons] at hub
        linarith
      have hlb' : ∀ m, m < k' → ¬ r ≤ (acc + p.2) + takeSum rest (m+1) := by
        intro m hm hc
        refine hlb (m+1) (Nat.succ_lt_succ hm) ?_
        rw [takeSum_cons]
        linarith
      simp only [cumSelect, if_neg h0]
      exact ih (acc + p.2) k' hk' hub' hlb'

/-- C5: in the simple variant's exploitation branch, `choose_action`
returns the first action in the weight dictionary's iteration order whose
cumulative normalized weight meets or exceeds the draw. -/
theorem choose_action_cumulative_first (s : FoxyBrain) (r1 r2 : ℚ)
    (i j : Fin 4) (hexp : ¬ r1 < s.exploration_rate) (k : ℕ)
    (hk : k < s.weights.length) (hub : r2 ≤ s.normCum (k+1))
    (hlb : ∀ m, m < k → ¬ r2 ≤ s.normCum (m+1)) :
    (s.choose_action r1 i r2 j).1 = (s.weights.get ⟨k, hk⟩).1 := by
  have hk2 : k < (s.weights.map
      (fun p => (p.1, p.2 / (s.weights.map Prod.snd).sum))).length := by
    simpa using hk
  have hspec := cumSelect_first r2
    (s.weights.map (fun p => (p.1, p.2 / (s.weights.map Prod.snd).sum)))
    0 k hk2
    (by simpa [FoxyBrain.normCum] using hub)
    (by
      intro m hm
      simpa [FoxyBrain.normCum] using hlb m hm)
  unfold FoxyBrain.choose_action
  rw [if_neg hexp, hspec]
  simp

/-- The uniform-weights brain with exploration disabled (ε forced to 0),
as in the spec's tie-break scenario. -/
def uniformNoExploreBrain : FoxyBrain :=
  { initBrain with exploration_rate := 0 }

theorem choose_action_cumulative_first_witness :
    (uniformNoExploreBrain.choose_action (1/2) 0 (999/1000) 0).1 = "walk" := by
  have h := choose_action_cumulative_first uniformNoExploreBrain (1/2)
    (999/1000) 0 0
    (by norm_num [uniformNoExploreBrain, initBrain])
    3
    (by norm_num [uniformNoExploreBrain, initBrain, initActions])
    (by norm_num [FoxyBrain.normCum, uniformNoExploreBrain, initBrain,
      initActions, takeSum])
    (by
      intro m hm
      interval_cases m <;>
        norm_num [FoxyBrain.normCum, uniformNoExploreBrain, initBrain,
          initActions, takeSum])
  simpa [uniformNoExploreBrain, initBrain, initActions] using h

/-! ### C2 — target-network synchronization -/

theorem gfd_nonmember (g : P → List Transition → P) (sd : DQNBrain P)
    (a : String) (p : Bool) (h : a ∉ initActions) :
    DQNBrain.give_feedback g sd a p = (sd, false) := by
  simp [DQNBrain.give_feedback, h]

/-- One abstract gradient step: bump the parameter version.  Used to
instantiate the abstract parameter blob with a counter so that gradient
updates are observable. -/
def gStep : ℕ → List Transition → ℕ := fun v _ => v + 1

/-- An arbitrary greedy readout for the counterexample trace. -/
def qZero : ℕ → List ℚ → Fin 4 := fun _ _ => 0

/-- A brain state right after a process restart: `load_brain` has restored
the persisted statistics (`total_actions = 99`, `current_time = 99`) and a
checkpoint in which the online and target parameters differ (the
checkpoint was saved between synchronizations), while the replay memory —
which is never persisted — is empty again. -/
def restartBrain : DQNBrain ℕ :=
  { policy_net := 5
    target_net := 0
    memory := { capacity := 2000, buffer := [] }
    action_counts := initActions.map (fun a => (a, 25))
    positive_feedback := initActions.map (fun a => (a, 10))
    total_clicks := 40
    total_actions := 99
    last_click_time := 90
    current_time := 99
    epsilon := 61/100
    current_state := none
    current_action_idx := none }

/-- C2 counterexample: from the restart state, the 100th action is chosen
and its feedback processed, yet no synchronization happens (the replay
memory holds fewer than `batch_size` transitions, so `train` returns
early): at `total_actions = 100` the target parameters still differ from
the online parameters, refuting "synchronized every 100 total actions". -/
theorem target_sync_missed_at_hundred :
    ((DQNBrain.give_feedback gStep
        ((DQNBrain.choose_action qZero restartBrain (1/2) 0).2)
        "excited" true).1.total_actions = 100) ∧
    ((DQNBrain.give_feedback gStep
        ((DQNBrain.choose_action qZero restartBrain (1/2) 0).2)
        "excited" true).1.target_net ≠
      (DQNBrain.give_feedback gStep
        ((DQNBrain.choose_action qZero restartBrain (1/2) 0).2)
        "excited" true).1.policy_net) := by
  constructor <;> decide

/-- C2 amended: the target parameters are written only by the
synchronization branch of the training step.  When `train` runs with at
least `batch_size` stored transitions and `total_actions % 100 == 0`, the
target parameters are set equal to the just-updated online parameters;
otherwise `train` leaves the target parameters unchanged even though the
online parameters may receive a gradient step.  Consequently every
`give_feedback` call either leaves the target parameters untouched or ends
with them equal to the online parameters. -/
theorem target_sync_conditions (P : Type) (g : P → List Transition → P)
    (sd : DQNBrain P) (a : String) (p : Bool) :
    ((batch_size ≤ sd.memory.buffer.length ∧ sd.total_actions % 100 = 0) →
      (DQNBrain.train g sd).target_net = (DQNBrain.train g sd).policy_net ∧
      (DQNBrain.train g sd).policy_net = g sd.policy_net sd.memory.buffer) ∧
    (¬ (batch_size ≤ sd.memory.buffer.length ∧ sd.total_actions % 100 = 0) →
      (DQNBrain.train g sd).target_net = sd.target_net) ∧
    ((DQNBrain.give_feedback g sd a p).1.target_net = sd.target_net ∨
      (DQNBrain.give_feedback g sd a p).1.target_net =
        (DQNBrain.give_feedback g sd a p).1.policy_net) := by
  refine ⟨?_, ?_, ?_⟩
  · rintro ⟨h1, h2⟩
    unfold DQNBrain.train
    rw [if_neg (not_lt.2 h1)]
    dsimp only
    rw [if_pos h2]
    exact ⟨rfl, rfl⟩
  · intro hn
    unfold DQNBrain.train
    by_cases h1 : sd.memory.buffer.length < batch_size
    · rw [if_pos h1]
    · rw [if_neg h1]
      dsimp only
      have h2 : ¬ sd.total_actions % 100 = 0 := fun hc => hn ⟨not_lt.1 h1, hc⟩
      rw [if_neg h2]
  · by_cases hm : a ∈ initActions
    · rw [gfd_member g sd a p hm]
      dsimp only
      rcases train_target_dichotomy g
          ((sd.feedback_stats a p).push_transition (initActions.indexOf a)
            (if p then 1 else -1/10) (sd.feedback_stats a p).get_state) with h | h
      · left
        rw [h, push_transition_target, feedback_stats_target]
      · right
        exact h
    · left
      rw [gfd_nonmember g sd a p hm]

/-- A brain state with a full minibatch in memory at a multiple of 100
total actions, for exercising the synchronization branch. -/
def fullBatchBrain : DQNBrain ℕ :=
  { DQNBrain.init 3 with
      memory := { capacity := 2000
                  buffer := List.replicate 32 ([], 0, 0, [], false) }
      total_actions := 200 }

theorem target_sync_conditions_witness :
    ((DQNBrain.train gStep fullBatchBrain).target_net =
        (DQNBrain.train gStep fullBatchBrain).policy_net ∧
      (DQNBrain.train gStep fullBatchBrain).policy_net =
        gStep fullBatchBrain.policy_net fullBatchBrain.memory.buffer) ∧
    ((DQNBrain.give_feedback gStep fullBatchBrain "excited" true).1.target_net =
        fullBatchBrain.target_net ∨
      (DQNBrain.give_feedback gStep fullBatchBrain "excited" true).1.target_net =
        (DQNBrain.give_feedback gStep fullBatchBrain "excited" true).1.policy_net) :=
  ⟨(target_sync_conditions ℕ gStep fullBatchBrain "excited" true).1
      ⟨by decide, by decide⟩,
    (target_sync_conditions ℕ gStep fullBatchBrain "excited" true).2.2⟩

end FoxyVPET
